import Mathlib

/-!
# Clutter planning: controller run loop and Gazebo geometry service

A shallow embedding of `planner/src/controller.cpp` (class `Controller`) and of
`gazebo_geometries_plugin/src/geometries_plugin.cpp` (`GeometriesPlugin::getGeometrySrv`).

Conventions of the embedding:

* a C++ `double` is a `Rat`: the code only copies these values or sets them to
  constants, it never computes with them;
* `std::string` is `String`, `std::vector` is `List`, `push_back` is `++ [x]`; the size of
  a string is its size in bytes, a position inside it counts characters;
* an unchecked `operator[]` is a lookup returning `Option`; a read past the end is
  undefined behaviour and surfaces as `none`, `outOfRange` or `undefinedBehaviour`;
* `exit(code)` ends the evaluation with `exited code`;
* messages sent to other nodes are recorded in a trace of `Event`s.
-/

namespace ClutterPlanning

/-! ## Strings -/

/-- Scan of `std::string::find`: the lowest position at or after `i` where `pat` occurs. -/
def findFrom (pat : List Char) : List Char → Nat → Option Nat
  | [], i => if pat.isEmpty then some i else none
  | c :: cs, i => if pat.isPrefixOf (c :: cs) then some i else findFrom pat cs (i + 1)

/-- The call `s.find(pat)`; `none` stands for `std::string::npos`. The position counts
characters; the occurrence found is the one the byte-wise search of `std::string` finds. -/
def find (s pat : String) : Option Nat := findFrom pat.data s.data 0

/-- The test `s.find(pat) != std::string::npos`. -/
def found (s pat : String) : Bool := (find s pat).isSome

/-- The value of `std::string::npos` on a 64-bit target. -/
def npos : Nat := 2 ^ 64 - 1

/-- The call `s.substr(pos, len)`; `none` is the `std::out_of_range` it throws when `pos`
exceeds the size of the string, which `std::string` counts in bytes. The cut is made in
characters: that is the code's cut at every position `find` returned and in every ASCII
string. -/
def substr (s : String) (pos len : Nat) : Option String :=
  if pos > s.utf8ByteSize then none else some ⟨(s.data.drop pos).take len⟩

/-! ## Messages and geometry -/

/-- A `double`. -/
abbrev Scalar := Rat

/-- Three doubles: `geometry_msgs::Vector3`, `geometry_msgs::Point`, `Eigen::Vector3d`. -/
structure Vec3 where
  x : Scalar
  y : Scalar
  z : Scalar
deriving DecidableEq

/-- Four doubles: `geometry_msgs::Quaternion`, `Eigen::Quaterniond`. -/
structure Quat where
  x : Scalar
  y : Scalar
  z : Scalar
  w : Scalar
deriving DecidableEq

/-- The message `geometry_msgs::Pose`. -/
structure Pose where
  position : Vec3
  orientation : Quat
deriving DecidableEq

/-- The response part of the service `gazebo_geometries_plugin::geometry`: parallel arrays. -/
structure Response where
  name : List String
  min_bounds : List Vec3
  max_bounds : List Vec3
  centre : List Vec3
  dimensions : List Vec3
  pose : List Pose
  message : String
deriving DecidableEq

/-- A freshly constructed service response: every array empty. -/
def Response.empty : Response := ⟨[], [], [], [], [], [], ""⟩

/-- The record `util::CollisionGeometry`, with the fields the controller writes and reads. -/
structure CollisionGeometry where
  name : String
  pose : Pose
  centre : Vec3
  min : Vec3
  max : Vec3
  dimension : Vec3
deriving DecidableEq

/-- One point of a `trajectory_msgs::JointTrajectory`; `time_from_start` in whole seconds. -/
structure JointTrajectoryPoint where
  positions : List Scalar
  velocities : List Scalar
  accelerations : List Scalar
  effort : List Scalar
  time_from_start : Nat
deriving DecidableEq

/-- The message `trajectory_msgs::JointTrajectory` (header left out). -/
structure JointTrajectory where
  joint_names : List String
  points : List JointTrajectoryPoint
deriving DecidableEq

/-- One state of an `og::PathGeometric`: what `getX/getY/getZ` return and the four numbers
the code reads through its `SO3StateSpace::StateType` view of the state. -/
structure State where
  x : Scalar
  y : Scalar
  z : Scalar
  rot : Quat
deriving DecidableEq

/-- An `og::PathGeometric`: its states and the verdict of `check()`. -/
structure PathGeometric where
  states : List State
  check : Bool
deriving DecidableEq

/-- Terminal state of a `FollowJointTrajectory` goal as `waitForResult` observes it. -/
inductive ActionResult
  | succeeded
  | aborted
  | timedOut
deriving DecidableEq

/-- What a controller call sends to the rest of the system, in order. -/
inductive Event
  | marker
  | query (model_name : String)
  | plan (geoms : List CollisionGeometry) (manipulator : String) (start : Pose) (goal : Vec3)
      (target : String)
  | savePath (path : PathGeometric)
  | armGoal (traj : JointTrajectory)
  | gripperGoal (traj : JointTrajectory)
  | result (r : ActionResult)
  | shutdown
deriving DecidableEq

/-- The kinematics model `manipulator_`, fixed for the session. -/
structure Manipulator where
  name : String
  numJoints : Nat
  jointNames : List String
  fingerNames : List String
  initPose : List Scalar
  homePose : List Scalar
  solveFK : Pose
  solveIK : Vec3 → Quat → List Scalar → List Scalar

/-- Everything outside the controller that one call can observe. -/
structure Env where
  manipulator : Manipulator
  /-- value of a default-constructed `util::CollisionGeometry` -/
  fresh : CollisionGeometry
  /-- the call `collisions_client_.call(srv)`: the response when it returns true -/
  call : String → Option Response
  /-- the planner: geometries, manipulator name, start, goal, target to `planner_.plan()` -/
  plan : List CollisionGeometry → String → Pose → Vec3 → String → PathGeometric
  /-- the value of `ros::ok()` at the end of iteration `i` of the conversion loop -/
  ok : Nat → Bool
  /-- terminal result the trajectory executor gives for a goal -/
  execute : JointTrajectory → ActionResult

/-- The members of `Controller` that make up the session. -/
structure Controller where
  states_name : List String
  states_pose : List Pose
  solved : Bool
  target : String
  collision_geometries : List CollisionGeometry
deriving DecidableEq

/-- How a call of `Controller::run` ends; `trace` holds the messages sent before the return,
the `exit` or the undefined operation. -/
inductive Outcome
  | returned (c : Controller) (trace : List Event)
  | exited (code : Int) (trace : List Event)
  | undefinedBehaviour (trace : List Event)
deriving DecidableEq

/-- How a call of `Controller::getCollisionBoxes` ends: with the new value of
`collision_geometries_` and the service requests made, in order, or at a read of a response
array past its end, with the requests made up to there. -/
inductive Aggregation
  | done (geoms : List CollisionGeometry) (queries : List String)
  | outOfRange (queries : List String)
deriving DecidableEq

/-- The geometry list of a completed aggregation. -/
def Aggregation.geoms? : Aggregation → Option (List CollisionGeometry)
  | .done geoms _ => some geoms
  | .outOfRange _ => none

/-- How a call of `Controller::getJointGoal` ends. -/
inductive Conversion
  | ok (traj : JointTrajectory)
  | exited (code : Int)
  | undefinedBehaviour
deriving DecidableEq

/-! ## `Controller::getCollisionBoxes` -/

/-- Body of the inner loop over a scene object response, at index `j`. -/
def sceneEntry (fresh : CollisionGeometry) (res : Response) (j : Nat) :
    Option CollisionGeometry :=
  match res.name[j]?, res.centre[j]?, res.min_bounds[j]?, res.max_bounds[j]?,
      res.dimensions[j]? with
  | some n, some c, some lo, some hi, some d =>
      some { fresh with name := n, centre := c, min := lo, max := hi, dimension := d }
  | _, _, _, _, _ => none

/-- Body of the inner loop over a manipulator link response, at index `j`. -/
def linkEntry (fresh : CollisionGeometry) (res : Response) (j : Nat) :
    Option CollisionGeometry :=
  match res.name[j]?, res.pose[j]?, res.min_bounds[j]?, res.max_bounds[j]?,
      res.dimensions[j]? with
  | some n, some p, some lo, some hi, some d =>
      some { fresh with name := n, pose := p, min := lo, max := hi, dimension := d }
  | _, _, _, _, _ => none

/-- The inner loop `for (j = 0; j < srv.response.name.size(); j++)`, pushing one entry per
index onto `acc`. -/
def pushEntries (entry : Nat → Option CollisionGeometry) (n : Nat)
    (acc : List CollisionGeometry) : Option (List CollisionGeometry) :=
  (List.range n).foldl
    (fun st j => st.bind (fun xs => (entry j).map (fun g => xs ++ [g]))) (some acc)

/-- The first loop of `getCollisionBoxes`, over `states_.name`; the state is the geometry
list and the names queried so far. -/
def sceneLoop (env : Env) :
    List String → List CollisionGeometry × List String → Aggregation
  | [], (acc, qs) => .done acc qs
  | n :: ns, (acc, qs) =>
    if found n env.manipulator.name then sceneLoop env ns (acc, qs)
    else
      match env.call n with
      | some res =>
        match pushEntries (sceneEntry env.fresh res) res.name.length acc with
        | some acc2 => sceneLoop env ns (acc2, qs ++ [n])
        | none => .outOfRange (qs ++ [n])
      | none => sceneLoop env ns (acc, qs ++ [n])

/-- The request name built in iteration `i` of the second loop. -/
def linkQuery (m : Manipulator) (i : Nat) : String :=
  let link :=
    if i < m.numJoints then "_link_" ++ toString (i + 1)
    else "_link_finger_" ++ toString ((i + 1) - m.numJoints)
  m.name ++ link

/-- The second loop of `getCollisionBoxes`, over the link indices. -/
def linkLoop (env : Env) :
    List Nat → List CollisionGeometry × List String → Aggregation
  | [], (acc, qs) => .done acc qs
  | i :: is, (acc, qs) =>
    let q := linkQuery env.manipulator i
    match env.call q with
    | some res =>
      match pushEntries (linkEntry env.fresh res) res.name.length acc with
      | some acc2 => linkLoop env is (acc2, qs ++ [q])
      | none => .outOfRange (qs ++ [q])
    | none => linkLoop env is (acc, qs ++ [q])

/-- The method `Controller::getCollisionBoxes`. -/
def getCollisionBoxes (env : Env) (c : Controller) : Aggregation :=
  match sceneLoop env c.states_name (c.collision_geometries, []) with
  | .done acc qs => linkLoop env (List.range (env.manipulator.numJoints + 3)) (acc, qs)
  | .outOfRange qs => .outOfRange qs

/-! ## Target resolution in `Controller::run` -/

/-- The loop of `run` over `collision_geometries_` from index `i`: the index at which it
breaks and the goal it has written there. -/
def findTarget (target : String) : List CollisionGeometry → Nat → Option (Nat × Vec3)
  | [], _ => none
  | g :: gs, i =>
    if found g.name target then some (i, g.pose.position) else findTarget target gs (i + 1)

/-! ## `Controller::getJointGoal`, `getGripperGoal`, `sendAction`, the posture resets -/

/-- The read `msg.points[j].positions` among the points filled so far. -/
def positionsAt (pts : List JointTrajectoryPoint) (j : Nat) : List Scalar :=
  match pts[j]? with
  | some p => p.positions
  | none => []

/-- The loop of `getJointGoal` over the retained states, from index `i`; `pts` holds the
points `msg.points[0 .. i-1]` already filled. -/
def jointGoalLoop (env : Env) : List State → Nat → List JointTrajectoryPoint → Conversion
  | [], _, pts => .ok { joint_names := env.manipulator.jointNames, points := pts }
  | s :: ss, i, pts =>
    let position : Vec3 := ⟨s.x, s.y, s.z⟩
    let orientation : Quat := s.rot
    let angles :=
      if i = 0 then env.manipulator.solveIK position orientation env.manipulator.initPose
      else env.manipulator.solveIK position orientation (positionsAt pts (i - 1))
    if angles.isEmpty then .exited (-1)
    else
      let pt : JointTrajectoryPoint :=
        { positions := angles
          effort := List.replicate env.manipulator.numJoints 1000
          velocities := List.replicate env.manipulator.numJoints 0
          accelerations := List.replicate env.manipulator.numJoints 0
          time_from_start := 5 + (i * 2) }
      if !env.ok i then .exited 0
      else jointGoalLoop env ss (i + 1) (pts ++ [pt])

/-- The method `Controller::getJointGoal`; erasing the first element of an empty vector is
undefined behaviour. -/
def getJointGoal (env : Env) (path : PathGeometric) : Conversion :=
  match path.states with
  | [] => .undefinedBehaviour
  | _ :: path_states => jointGoalLoop env path_states 0 []

/-- The method `Controller::getGripperGoal`: a fixed one-point close command. -/
def getGripperGoal (env : Env) : JointTrajectory :=
  { joint_names := env.manipulator.fingerNames
    points := [{ positions := [0.95, 0.95, 0.95]
                 effort := [5, 5, 5]
                 velocities := [0, 0, 0]
                 accelerations := [0, 0, 0]
                 time_from_start := 2 }] }

/-- The method `Controller::sendAction`: it returns `void`; each goal is sent and its
terminal result awaited, arm first. -/
def sendAction (env : Env) (joint_traj gripper_traj : JointTrajectory) : List Event :=
  [.armGoal joint_traj, .result (env.execute joint_traj),
   .gripperGoal gripper_traj, .result (env.execute gripper_traj)]

/-- The method `Controller::goToInit`. -/
def goToInit (env : Env) (c : Controller) : List Event :=
  let joints_msg : JointTrajectory :=
    { joint_names := env.manipulator.jointNames
      points := [{ positions := env.manipulator.initPose
                   effort := List.replicate env.manipulator.numJoints 1000
                   velocities := []
                   accelerations := []
                   time_from_start := 5 }] }
  let gripper_msg : JointTrajectory :=
    { joint_names := env.manipulator.fingerNames
      points := [{ positions := if !c.solved then [0.4, 0.4, 0.4] else [0.95, 0.95, 0.95]
                   effort := []
                   velocities := []
                   accelerations := []
                   time_from_start := 3 }] }
  sendAction env joints_msg gripper_msg

/-- The method `Controller::goToHome`. -/
def goToHome (env : Env) : List Event :=
  let joints_msg : JointTrajectory :=
    { joint_names := env.manipulator.jointNames
      points := [{ positions := env.manipulator.homePose
                   effort := []
                   velocities := []
                   accelerations := []
                   time_from_start := 5 }] }
  let gripper_msg : JointTrajectory :=
    { joint_names := env.manipulator.fingerNames
      points := [{ positions := [0.95, 0.95, 0.95]
                   effort := [5, 5, 5]
                   velocities := []
                   accelerations := []
                   time_from_start := 3 }] }
  sendAction env joints_msg gripper_msg

/-- The method `Controller::setTargetName`. -/
def setTargetName (c : Controller) (target : String) : Controller :=
  { c with target := target }

/-- The method `Controller::statesCallback`: the snapshot is replaced wholesale. -/
def statesCallback (c : Controller) (name : List String) (pose : List Pose) : Controller :=
  { c with states_name := name, states_pose := pose }

/-! ## `Controller::run` -/

/-- The method `Controller::run`, one tick. -/
def run (env : Env) (c : Controller) : Outcome :=
  if c.states_pose.isEmpty || c.solved then .returned c []
  else
    match getCollisionBoxes env c with
    | .outOfRange queries => .undefinedBehaviour (.marker :: queries.map Event.query)
    | .done geoms queries =>
      let c1 : Controller := { c with collision_geometries := geoms }
      let t1 : List Event := .marker :: queries.map Event.query
      match findTarget c.target geoms 0 with
      | none => .exited (-1) t1
      | some (_, goal) =>
        let start_pose := env.manipulator.solveFK
        let solution := env.plan geoms env.manipulator.name start_pose goal c.target
        let t2 := t1 ++ [.marker, .plan geoms env.manipulator.name start_pose goal c.target]
        if solution.check then
          let t3 := t2 ++ .savePath solution :: List.replicate solution.states.length .marker
          match getJointGoal env solution with
          | .undefinedBehaviour => .undefinedBehaviour t3
          | .exited code => .exited code t3
          | .ok joint_traj =>
            let t4 := t3 ++ sendAction env joint_traj (getGripperGoal env)
            let c2 : Controller := { c1 with solved := true }
            .returned c2 (t4 ++ goToInit env c2 ++ [.shutdown])
        else .returned c1 t2

/-- Session state a call of `run` leaves behind, when the process survives it. -/
def Outcome.session : Outcome → Option Controller
  | .returned c _ => some c
  | _ => none

/-- Messages a call of `run` sent before it ended. -/
def Outcome.trace : Outcome → List Event
  | .returned _ t => t
  | .exited _ t => t
  | .undefinedBehaviour t => t

/-- Whether an event is a trajectory goal handed to the executor. -/
def Event.isDispatch : Event → Bool
  | .armGoal _ => true
  | .gripperGoal _ => true
  | _ => false

/-! ## `GeometriesPlugin::getGeometrySrv` -/

/-- What the accessors of an `ignition::math::Box` return. -/
structure Box where
  min : Vec3
  max : Vec3
  center : Vec3
  lengths : Vec3
deriving DecidableEq

/-- A child of a link; `collision` is its bounding box when the child is a
`physics::Collision`, `none` when the dynamic cast fails. -/
structure LinkChild where
  name : String
  collision : Option Box
deriving DecidableEq

/-- A child of a model; `link` lists its children when the child is a `physics::Link`,
`none` when the dynamic cast fails. -/
structure ModelChild where
  link : Option (List LinkChild)
deriving DecidableEq

/-- A `physics::Model`. -/
structure Model where
  name : String
  children : List ModelChild
deriving DecidableEq

/-- The models of the simulated world `world_`. -/
abbrev World := List Model

/-- The call `world_->ModelByName(name)`; `none` is the null pointer. -/
def ModelByName (w : World) (name : String) : Option Model :=
  w.find? (fun m => m.name == name)

/-- How a call of `getGeometrySrv` ends. -/
inductive SrvOutcome
  | returned (success : Bool) (res : Response)
  | outOfRange
  | nullDeref
deriving DecidableEq

/-- The five `push_back`s of one found collision. -/
def pushBox (res : Response) (name : String) (box : Box) : Response :=
  { res with
    name := res.name ++ [name]
    min_bounds := res.min_bounds ++ [box.min]
    max_bounds := res.max_bounds ++ [box.max]
    centre := res.centre ++ [box.center]
    dimensions := res.dimensions ++ [box.lengths] }

/-- The loop over the children of one link; `none` when a null `geom` is dereferenced. -/
def collisionLoop (req : String) (find_link : Bool) (link_name : String) :
    List LinkChild → Response → Option Response
  | [], res => some res
  | ch :: rest, res =>
    if !find_link then
      match ch.collision with
      | none => none
      | some box => collisionLoop req find_link link_name rest (pushBox res (req ++ "_" ++ ch.name) box)
    else if ch.name = link_name then
      match ch.collision with
      | none => none
      | some box => some (pushBox res req box)
    else collisionLoop req find_link link_name rest res

/-- The loop over the children of the model. -/
def childLoop (req : String) (find_link : Bool) : List ModelChild → Response → SrvOutcome
  | [], res => .returned true { res with message := "GeomtriesPlugin: Model found!" }
  | ch :: rest, res =>
    match ch.link with
    | none => childLoop req find_link rest res
    | some kids =>
      let pos := match find req "link_" with
        | some p => p
        | none => npos
      match substr req ((pos + 5) % 2 ^ 64) req.utf8ByteSize with
      | none => .outOfRange
      | some sub =>
        let link_name :=
          if found req "j2s7s300" || found req "j2s6s300" || found req "j2n6s300"
          then req ++ "_collision" else sub
        match collisionLoop req find_link link_name kids res with
        | none => .nullDeref
        | some res2 => childLoop req find_link rest res2

/-- The service callback `GeometriesPlugin::getGeometrySrv` on a fresh response. -/
def getGeometrySrv (w : World) (req : String) : SrvOutcome :=
  let lookup : Option (Bool × Option Model) :=
    match find req "_link" with
    | some pos => (substr req 0 pos).map (fun name => (true, ModelByName w name))
    | none => some (false, ModelByName w req)
  match lookup with
  | none => .outOfRange
  | some (_, none) =>
    .returned false { Response.empty with message := "Error, model does not exist!" }
  | some (find_link, some model) => childLoop req find_link model.children Response.empty

/-- The service as the controller's client sees it: the response when the callback
returned true, a failed call otherwise. -/
def callPlugin (w : World) (req : String) : Option Response :=
  match getGeometrySrv w req with
  | .returned true res => some res
  | _ => none

/-! ## Reference definitions, in the words of the specification -/

/-- A name contains `pat` as a substring. -/
def Contains (s pat : String) : Prop := pat.data <:+: s.data

instance (s pat : String) : Decidable (Contains s pat) := by
  unfold Contains
  infer_instance

/-- Every array the scene object loop reads has an entry at each index of `name`. -/
def Response.sceneParallel (r : Response) : Prop :=
  r.name.length ≤ r.centre.length ∧ r.name.length ≤ r.min_bounds.length ∧
    r.name.length ≤ r.max_bounds.length ∧ r.name.length ≤ r.dimensions.length

/-- Every array the manipulator link loop reads has an entry at each index of `name`. -/
def Response.linkParallel (r : Response) : Prop :=
  r.name.length ≤ r.pose.length ∧ r.name.length ≤ r.min_bounds.length ∧
    r.name.length ≤ r.max_bounds.length ∧ r.name.length ≤ r.dimensions.length

instance (r : Response) : Decidable r.sceneParallel := by
  unfold Response.sceneParallel
  infer_instance

instance (r : Response) : Decidable r.linkParallel := by
  unfold Response.linkParallel
  infer_instance

/-- The entries of five parallel arrays that share an index, in index order. -/
def zip5 {α β γ δ ε : Type} :
    List α → List β → List γ → List δ → List ε → List (α × β × γ × δ × ε)
  | a :: l1, b :: l2, c :: l3, d :: l4, e :: l5 => (a, b, c, d, e) :: zip5 l1 l2 l3 l4 l5
  | _, _, _, _, _ => []

/-- The sub-geometries of a scene object response: for each index the name, centre, min, max
and dimensions the provider returned there, the pose left as constructed (`unset`). -/
def sceneGeometriesSpec (unset : CollisionGeometry) (r : Response) : List CollisionGeometry :=
  (zip5 r.name r.centre r.min_bounds r.max_bounds r.dimensions).map
    (fun e => ⟨e.1, unset.pose, e.2.1, e.2.2.1, e.2.2.2.1, e.2.2.2.2⟩)

/-- The sub-geometries of a manipulator link response: for each index the name, pose, min, max
and dimensions the provider returned there, the centre left as constructed (`unset`). -/
def linkGeometriesSpec (unset : CollisionGeometry) (r : Response) : List CollisionGeometry :=
  (zip5 r.name r.pose r.min_bounds r.max_bounds r.dimensions).map
    (fun e => ⟨e.1, e.2.1, unset.centre, e.2.2.1, e.2.2.2.1, e.2.2.2.2⟩)

/-- The sub-geometries a query contributes: those of the response, none for a failed query. -/
def contribution (geoms : Response → List CollisionGeometry) :
    Option Response → List CollisionGeometry
  | some r => geoms r
  | none => []

/-- The scene names that are queried: those not containing the manipulator name. -/
def sceneQueriesSpec (env : Env) (scene_names : List String) : List String :=
  scene_names.filter (fun n => ¬ Contains n env.manipulator.name)

/-- The canonical link query name of index `i`. -/
def linkQuerySpec (m : Manipulator) (i : Nat) : String :=
  if i < m.numJoints then m.name ++ "_link_" ++ toString (i + 1)
  else m.name ++ "_link_finger_" ++ toString (i + 1 - m.numJoints)

/-- The link queries, in index order. -/
def linkQueriesSpec (env : Env) : List String :=
  (List.range (env.manipulator.numJoints + 3)).map (linkQuerySpec env.manipulator)

/-- The reference aggregation `aggregate(scene_names, manipulator)`. -/
def aggregateSpec (env : Env) (scene_names : List String) : List CollisionGeometry :=
  (sceneQueriesSpec env scene_names).flatMap
      (fun n => contribution (sceneGeometriesSpec env.fresh) (env.call n)) ++
    (linkQueriesSpec env).flatMap
      (fun q => contribution (linkGeometriesSpec env.fresh) (env.call q))

/-- The chained inverse kinematics solutions of a waypoint sequence: each solve is seeded
with the solution before it, the first one with `seed`. -/
def chainedIK (m : Manipulator) : List Scalar → List State → List (List Scalar)
  | _, [] => []
  | seed, s :: ss =>
    let a := m.solveIK ⟨s.x, s.y, s.z⟩ s.rot seed
    a :: chainedIK m a ss

/-- The trajectory point the conversion builds from a solution at index `i`. -/
def pointOf (m : Manipulator) (angles : List Scalar) (i : Nat) : JointTrajectoryPoint :=
  { positions := angles
    effort := List.replicate m.numJoints 1000
    velocities := List.replicate m.numJoints 0
    accelerations := List.replicate m.numJoints 0
    time_from_start := 5 + i * 2 }

/-- The points built from a sequence of solutions, the first at index `i`. -/
def stampFrom (m : Manipulator) : Nat → List (List Scalar) → List JointTrajectoryPoint
  | _, [] => []
  | i, a :: as => pointOf m a i :: stampFrom m (i + 1) as

/-- The seed of the solve at index `i`: the init pose at 0, else the positions of the
point before. -/
def seedAt (m : Manipulator) (pts : List JointTrajectoryPoint) (i : Nat) : List Scalar :=
  if i = 0 then m.initPose else positionsAt pts (i - 1)

/-- The geometry list of a planner request, for other events nothing. -/
def Event.geoms? : Event → Option (List CollisionGeometry)
  | .plan geoms _ _ _ _ => some geoms
  | _ => none

/-- The terminal result received, for other events nothing. -/
def Event.result? : Event → Option ActionResult
  | .result r => some r
  | _ => none

/-- The goal of a planner request, for other events nothing. -/
def Event.goal? : Event → Option Vec3
  | .plan _ _ _ goal _ => some goal
  | _ => none

/-! ## Example inputs -/

/-- The zero vector. -/
def zeroVec : Vec3 := ⟨0, 0, 0⟩

/-- A default-constructed geometry whose message fields are zero-initialised. -/
def zeroGeometry : CollisionGeometry :=
  ⟨"", ⟨zeroVec, ⟨0, 0, 0, 0⟩⟩, zeroVec, zeroVec, zeroVec, zeroVec⟩

/-- A seven joint arm whose solver fails exactly on positions with `x = 3`. -/
def kinova : Manipulator :=
  { name := "j2s7s300"
    numJoints := 7
    jointNames := ["j1", "j2", "j3", "j4", "j5", "j6", "j7"]
    fingerNames := ["f1", "f2", "f3"]
    initPose := [0, 0, 0, 0, 0, 0, 0]
    homePose := [1, 1, 1, 1, 1, 1, 1]
    solveFK := ⟨⟨0, 0, 1⟩, ⟨0, 0, 0, 1⟩⟩
    solveIK := fun p _ seed => if p.x = 3 then [] else p.x :: seed.take 1 }

/-- The provider's answer for the can: one box centred at (1, 2, 3). -/
def cokeResponse : Response :=
  { name := ["coke_can_collision"]
    min_bounds := [⟨0, 1, 2⟩]
    max_bounds := [⟨2, 3, 4⟩]
    centre := [⟨1, 2, 3⟩]
    dimensions := [⟨2, 2, 2⟩]
    pose := []
    message := "" }

/-- The provider's answer for the table: two boxes. -/
def tableResponse : Response :=
  { name := ["table_top", "table_leg"]
    min_bounds := [⟨0, 0, 0⟩, ⟨0, 0, -1⟩]
    max_bounds := [⟨4, 4, 2⟩, ⟨2, 2, 1⟩]
    centre := [⟨2, 2, 1⟩, ⟨1, 1, 0⟩]
    dimensions := [⟨4, 4, 2⟩, ⟨2, 2, 2⟩]
    pose := []
    message := "" }

/-- A provider that knows the table and the can and none of the links. -/
def sceneCall (n : String) : Option Response :=
  if n = "coke_can" then some cokeResponse
  else if n = "table" then some tableResponse
  else none

/-- The provider's answer for the first arm link, pose included. -/
def linkResponse : Response :=
  { name := ["j2s7s300_link_1"]
    min_bounds := [⟨0, 0, 0⟩]
    max_bounds := [⟨2, 2, 4⟩]
    centre := [⟨1, 1, 2⟩]
    dimensions := [⟨2, 2, 4⟩]
    pose := [⟨⟨1, 1, 2⟩, ⟨0, 0, 0, 1⟩⟩]
    message := "" }

/-- A provider that also knows the first arm link. -/
def linkCall (n : String) : Option Response :=
  if n = "j2s7s300_link_1" then some linkResponse else sceneCall n

/-- A straight path of `n + 1` states with x = 0, 1, .., n. -/
def linePath (n : Nat) (check : Bool) : PathGeometric :=
  { states := (List.range (n + 1)).map (fun i => ⟨i, 0, 0, ⟨0, 0, 0, 1⟩⟩), check := check }

/-- Scenario A with a planner that finds no valid path. -/
def envNoPlan : Env :=
  { manipulator := kinova
    fresh := zeroGeometry
    call := sceneCall
    plan := fun _ _ _ _ _ => linePath 0 false
    ok := fun _ => true
    execute := fun _ => .succeeded }

/-- Scenario A with a provider that answers for one link as well. -/
def envLinks : Env := { envNoPlan with call := linkCall }

/-- Scenario A with a planner that returns a valid straight path of `n + 1` states. -/
def envPlan (n : Nat) : Env := { envNoPlan with plan := fun _ _ _ _ _ => linePath n true }

/-- Scenario A with a valid three state path and an executor that aborts every goal. -/
def envAborted : Env := { envPlan 2 with execute := fun _ => .aborted }

/-- A session that has received the snapshot of scenario A and is not solved. -/
def sessionA : Controller :=
  { states_name := ["table", "coke_can", "j2s7s300"]
    states_pose := [⟨zeroVec, ⟨0, 0, 0, 1⟩⟩, ⟨⟨1, 2, 3⟩, ⟨0, 0, 0, 1⟩⟩, ⟨zeroVec, ⟨0, 0, 0, 1⟩⟩]
    solved := false
    target := "coke_can"
    collision_geometries := [] }

/-- A world with the arm, whose first link carries one collision, and the can. -/
def kinovaWorld : World :=
  [{ name := "j2s7s300"
     children := [⟨some [⟨"j2s7s300_link_1_collision",
       some ⟨⟨0, 0, 0⟩, ⟨2, 2, 4⟩, ⟨1, 1, 2⟩, ⟨2, 2, 4⟩⟩⟩]⟩] },
   { name := "coke_can"
     children := [⟨some [⟨"collision", some ⟨⟨0, 1, 2⟩, ⟨2, 3, 4⟩, ⟨1, 2, 3⟩, ⟨2, 2, 2⟩⟩⟩]⟩] }]

/-- Scenario A with the geometry plugin itself as provider. -/
def envPlugin : Env := { envNoPlan with call := callPlugin kinovaWorld }

/-- The session of scenario A once solved. -/
def sessionDone : Controller := { sessionA with solved := true }

/-- The list scenario A aggregates from an empty one. -/
def geomsA : List CollisionGeometry :=
  [⟨"table_top", zeroGeometry.pose, ⟨2, 2, 1⟩, ⟨0, 0, 0⟩, ⟨4, 4, 2⟩, ⟨4, 4, 2⟩⟩,
   ⟨"table_leg", zeroGeometry.pose, ⟨1, 1, 0⟩, ⟨0, 0, -1⟩, ⟨2, 2, 1⟩, ⟨2, 2, 2⟩⟩,
   ⟨"coke_can_collision", zeroGeometry.pose, ⟨1, 2, 3⟩, ⟨0, 1, 2⟩, ⟨2, 3, 4⟩, ⟨2, 2, 2⟩⟩]

/-- The service requests of one tick of scenario A. -/
def queriesA : List String :=
  ["table", "coke_can", "j2s7s300_link_1", "j2s7s300_link_2", "j2s7s300_link_3",
   "j2s7s300_link_4", "j2s7s300_link_5", "j2s7s300_link_6", "j2s7s300_link_7",
   "j2s7s300_link_finger_1", "j2s7s300_link_finger_2", "j2s7s300_link_finger_3"]

/-- A response extended by one entry per listed collision, in order. -/
def Response.extend (res : Response) (entries : List (String × Box)) : Response :=
  { res with
    name := res.name ++ entries.map (fun e => e.1)
    min_bounds := res.min_bounds ++ entries.map (fun e => e.2.min)
    max_bounds := res.max_bounds ++ entries.map (fun e => e.2.max)
    centre := res.centre ++ entries.map (fun e => e.2.center)
    dimensions := res.dimensions ++ entries.map (fun e => e.2.lengths) }

/-- The collision children of one link, each named `<request name>_<collision name>`. -/
def linkEntriesSpec (req : String) (kids : List LinkChild) : List (String × Box) :=
  kids.filterMap (fun k => k.collision.map (fun box => (req ++ "_" ++ k.name, box)))

/-- The entries of a whole-model query: the collision children of each link child of the
model, in traversal order. -/
def modelEntriesSpec (req : String) (m : Model) : List (String × Box) :=
  m.children.flatMap (fun ch =>
    match ch.link with
    | some kids => linkEntriesSpec req kids
    | none => [])

/-- The response the specification expects of a successful whole-model query. -/
def wholeModelSpec (req : String) (m : Model) : Response :=
  { Response.empty.extend (modelEntriesSpec req m) with
    message := "GeomtriesPlugin: Model found!" }

/-- Every child of every link of the model is a collision. -/
def Model.allCollisions (m : Model) : Prop :=
  ∀ ch ∈ m.children, ∀ kids, ch.link = some kids → ∀ k ∈ kids, k.collision.isSome = true

/-- A model of the given name: one link carrying two collisions. -/
def boxModel (name : String) : Model :=
  { name := name
    children := [⟨some [⟨"top", some ⟨⟨0, 0, 1⟩, ⟨2, 2, 3⟩, ⟨1, 1, 2⟩, ⟨2, 2, 2⟩⟩⟩,
      ⟨"base", some ⟨⟨0, 0, 0⟩, ⟨2, 2, 1⟩, ⟨1, 1, 0⟩, ⟨2, 2, 1⟩⟩⟩]⟩] }

/-- A world holding that one model. -/
def boxWorld (name : String) : World := [boxModel name]

/-! ## Lemmas on strings -/

theorem findFrom_isSome (pat : List Char) (s : List Char) (i : Nat) :
    (findFrom pat s i).isSome = true ↔ pat <:+: s := by
  induction s generalizing i with
  | nil =>
    unfold findFrom
    by_cases h : pat = []
    · subst h; simp
    · have : pat.isEmpty = false := by cases pat <;> simp_all
      simp [this, List.infix_nil, h]
  | cons c cs ih =>
    unfold findFrom
    by_cases h : pat.isPrefixOf (c :: cs) = true
    · simp only [h, if_true, Option.isSome_some, true_iff]
      exact (List.isPrefixOf_iff_prefix.mp h).isInfix
    · simp only [h, if_false, Bool.false_eq_true]
      rw [ih, List.infix_cons_iff]
      constructor
      · exact Or.inr
      · rintro (hp | hi)
        · exact absurd (List.isPrefixOf_iff_prefix.mpr hp) h
        · exact hi

theorem found_iff (s pat : String) : found s pat = true ↔ Contains s pat := by
  unfold found find Contains
  exact findFrom_isSome _ _ _

/-! ## Target resolution -/

theorem findTarget_some (target : String) (geoms : List CollisionGeometry) (k i : Nat)
    (goal : Vec3) :
    findTarget target geoms k = some (i, goal) ↔
      ∃ n g, i = k + n ∧ geoms[n]? = some g ∧ Contains g.name target ∧
        goal = g.pose.position ∧
        ∀ j g2, j < n → geoms[j]? = some g2 → ¬ Contains g2.name target := by
  induction geoms generalizing k with
  | nil => simp [findTarget]
  | cons g gs ih =>
    unfold findTarget
    by_cases h : found g.name target = true
    · simp only [h, if_true, Option.some.injEq, Prod.mk.injEq]
      constructor
      · rintro ⟨rfl, rfl⟩
        exact ⟨0, g, rfl, by simp, (found_iff _ _).mp h, rfl, by intro j g2 hj; omega⟩
      · rintro ⟨n, g1, hi, hg, hc, hgoal, hmin⟩
        cases n with
        | zero =>
          simp only [List.getElem?_cons_zero, Option.some.injEq] at hg
          subst hg
          exact ⟨by omega, hgoal.symm⟩
        | succ n =>
          exact absurd ((found_iff _ _).mp h) (hmin 0 g (by omega) (by simp))
    · simp only [h, if_false, Bool.false_eq_true]
      rw [ih]
      constructor
      · rintro ⟨n, g1, hi, hg, hc, hgoal, hmin⟩
        refine ⟨n + 1, g1, by omega, by simpa using hg, hc, hgoal, ?_⟩
        intro j g2 hj hg2
        cases j with
        | zero =>
          simp only [List.getElem?_cons_zero, Option.some.injEq] at hg2
          subst hg2
          exact fun hc2 => h ((found_iff _ _).mpr hc2)
        | succ j => exact hmin j g2 (by omega) (by simpa using hg2)
      · rintro ⟨n, g1, hi, hg, hc, hgoal, hmin⟩
        cases n with
        | zero =>
          simp only [List.getElem?_cons_zero, Option.some.injEq] at hg
          subst hg
          exact absurd ((found_iff _ _).mpr hc) h
        | succ n =>
          refine ⟨n, g1, by omega, by simpa using hg, hc, hgoal, ?_⟩
          intro j g2 hj hg2
          exact hmin (j + 1) g2 (by omega) (by simpa using hg2)

theorem findTarget_none (target : String) (geoms : List CollisionGeometry) (k : Nat) :
    findTarget target geoms k = none ↔ ∀ g ∈ geoms, ¬ Contains g.name target := by
  induction geoms generalizing k with
  | nil => simp [findTarget]
  | cons g gs ih =>
    unfold findTarget
    by_cases h : found g.name target = true
    · simp only [h, if_true, List.mem_cons, forall_eq_or_imp, reduceCtorEq, false_iff, not_and]
      intro hn
      exact absurd ((found_iff _ _).mp h) hn
    · simp only [h, if_false, Bool.false_eq_true, List.mem_cons, forall_eq_or_imp]
      rw [ih]
      constructor
      · exact fun hgs => ⟨fun hc => h ((found_iff _ _).mpr hc), hgs⟩
      · exact fun hall => hall.2

theorem plan_mem_trace (env : Env) (c : Controller) (geoms : List CollisionGeometry)
    (qs : List String) (i : Nat) (goal : Vec3)
    (hpose : c.states_pose ≠ []) (hsolved : c.solved = false)
    (hg : getCollisionBoxes env c = .done geoms qs)
    (ht : findTarget c.target geoms 0 = some (i, goal)) :
    Event.plan geoms env.manipulator.name env.manipulator.solveFK goal c.target ∈
      (run env c).trace := by
  have hguard : (c.states_pose.isEmpty || c.solved) = false := by
    cases hp : c.states_pose with
    | nil => exact absurd hp hpose
    | cons a l => simp [hsolved]
  unfold run
  simp only [hguard, hg, ht, Bool.false_eq_true, if_false]
  split
  · split <;> simp [Outcome.trace]
  · simp [Outcome.trace]

theorem run_exit_not_found (env : Env) (c : Controller) (geoms : List CollisionGeometry)
    (qs : List String) (hpose : c.states_pose ≠ []) (hsolved : c.solved = false)
    (hg : getCollisionBoxes env c = .done geoms qs) :
    run env c = .exited (-1) (.marker :: qs.map .query) ↔
      findTarget c.target geoms 0 = none := by
  have hguard : (c.states_pose.isEmpty || c.solved) = false := by
    cases hp : c.states_pose with
    | nil => exact absurd hp hpose
    | cons a l => simp [hsolved]
  unfold run
  simp only [hguard, hg, Bool.false_eq_true, if_false]
  cases ht : findTarget c.target geoms 0 with
  | none => simp
  | some r =>
    obtain ⟨i, goal⟩ := r
    simp only [reduceCtorEq, iff_false]
    split
    · split <;> simp
    · simp

/-- C1 (failing input): in scenario A the aggregated list holds the can with centre (1, 2, 3)
as its first entry matching the target, and the goal handed to the planner is the
never-written pose position (0, 0, 0) of that entry, not its centre. -/
theorem run_goal_is_unset_pose :
    (getCollisionBoxes envNoPlan sessionA).geoms?.map
        (fun gs => gs.map (fun g => (g.name, g.centre, g.pose.position))) =
      some [("table_top", ⟨2, 2, 1⟩, ⟨0, 0, 0⟩), ("table_leg", ⟨1, 1, 0⟩, ⟨0, 0, 0⟩),
        ("coke_can_collision", ⟨1, 2, 3⟩, ⟨0, 0, 0⟩)] ∧
    (run envNoPlan sessionA).trace.filterMap Event.goal? = [⟨0, 0, 0⟩] := by
  decide

/-- C2: target resolution is first match by substring. On a tick that passes the guard and
aggregates the list `geoms`, the loop stops at index `i` with goal `goal` exactly when `i` is
the least index whose name contains the target and `goal` is read from that entry; that goal
is the one handed to the planner; a match exists as soon as some name contains the target;
and the run exits with code -1 before any planner request exactly when no name contains
the target. -/
theorem target_resolution_first_match (env : Env) (c : Controller)
    (geoms : List CollisionGeometry) (qs : List String)
    (hpose : c.states_pose ≠ []) (hsolved : c.solved = false)
    (hg : getCollisionBoxes env c = .done geoms qs) :
    (∀ i goal, findTarget c.target geoms 0 = some (i, goal) ↔
      ∃ g, geoms[i]? = some g ∧ Contains g.name c.target ∧ goal = g.pose.position ∧
        ∀ j g2, j < i → geoms[j]? = some g2 → ¬ Contains g2.name c.target) ∧
    (∀ i goal, findTarget c.target geoms 0 = some (i, goal) →
      Event.plan geoms env.manipulator.name env.manipulator.solveFK goal c.target ∈
        (run env c).trace) ∧
    ((∃ g ∈ geoms, Contains g.name c.target) →
      ∃ i goal, findTarget c.target geoms 0 = some (i, goal)) ∧
    (run env c = .exited (-1) (.marker :: qs.map .query) ↔
      ∀ g ∈ geoms, ¬ Contains g.name c.target) := by
  refine ⟨?_, ?_, ?_, ?_⟩
  · intro i goal
    rw [findTarget_some]
    constructor
    · rintro ⟨n, g, hi, hgn, hc, hgoal, hmin⟩
      have : i = n := by omega
      subst this
      exact ⟨g, hgn, hc, hgoal, hmin⟩
    · rintro ⟨g, hgn, hc, hgoal, hmin⟩
      exact ⟨i, g, by omega, hgn, hc, hgoal, hmin⟩
  · intro i goal ht
    exact plan_mem_trace env c geoms qs i goal hpose hsolved hg ht
  · rintro ⟨g, hmem, hc⟩
    cases ht : findTarget c.target geoms 0 with
    | none => exact absurd hc ((findTarget_none _ _ _).mp ht g hmem)
    | some r => exact ⟨r.1, r.2, rfl⟩
  · rw [run_exit_not_found env c geoms qs hpose hsolved hg, findTarget_none]

/-- C2 (witness): in scenario A the aggregated list is the table's two boxes and the can,
the loop stops at index 2, the can, and the planner is handed the goal read there. -/
theorem target_resolution_first_match_witness :
    getCollisionBoxes envNoPlan sessionA = .done geomsA queriesA ∧
    findTarget sessionA.target geomsA 0 = some (2, zeroVec) ∧
    Event.plan geomsA "j2s7s300" kinova.solveFK zeroVec "coke_can" ∈
      (run envNoPlan sessionA).trace :=
  ⟨by decide, by decide,
    (target_resolution_first_match envNoPlan sessionA geomsA queriesA (by decide) rfl
      (by decide)).2.1 2 zeroVec (by decide)⟩

/-! ## Aggregation -/

theorem foldl_push_none (entry : Nat → Option CollisionGeometry) (js : List Nat) :
    js.foldl (fun st j => st.bind (fun xs => (entry j).map (fun g => xs ++ [g])))
      (none : Option (List CollisionGeometry)) = none := by
  induction js with
  | nil => rfl
  | cons j js ih => simpa using ih

theorem foldl_push (entry : Nat → Option CollisionGeometry) (js : List Nat)
    (acc : List CollisionGeometry) (h : ∀ j ∈ js, (entry j).isSome = true) :
    js.foldl (fun st j => st.bind (fun xs => (entry j).map (fun g => xs ++ [g]))) (some acc) =
      some (acc ++ js.filterMap entry) := by
  induction js generalizing acc with
  | nil => simp
  | cons j js ih =>
    obtain ⟨g, hg⟩ := Option.isSome_iff_exists.mp (h j (List.mem_cons_self _ _))
    simp only [List.foldl_cons, Option.some_bind, hg, Option.map_some', List.filterMap_cons]
    rw [ih (acc ++ [g]) (fun k hk => h k (List.mem_cons_of_mem _ hk))]
    simp

theorem pushEntries_eq (entry : Nat → Option CollisionGeometry) (n : Nat)
    (acc : List CollisionGeometry) (h : ∀ j, j < n → (entry j).isSome = true) :
    pushEntries entry n acc = some (acc ++ (List.range n).filterMap entry) :=
  foldl_push entry (List.range n) acc (fun j hj => h j (List.mem_range.mp hj))

theorem getElem?_of_le {α : Type} (l : List α) (j n : Nat) (hj : j < n) (hn : n ≤ l.length) :
    ∃ a, l[j]? = some a :=
  ⟨l[j], List.getElem?_eq_getElem (by omega)⟩

theorem sceneEntry_isSome (fresh : CollisionGeometry) (r : Response) (h : r.sceneParallel)
    (j : Nat) (hj : j < r.name.length) : (sceneEntry fresh r j).isSome = true := by
  obtain ⟨h1, h2, h3, h4⟩ := h
  obtain ⟨a0, e0⟩ := getElem?_of_le r.name j _ hj (le_refl _)
  obtain ⟨a1, e1⟩ := getElem?_of_le r.centre j _ hj h1
  obtain ⟨a2, e2⟩ := getElem?_of_le r.min_bounds j _ hj h2
  obtain ⟨a3, e3⟩ := getElem?_of_le r.max_bounds j _ hj h3
  obtain ⟨a4, e4⟩ := getElem?_of_le r.dimensions j _ hj h4
  simp [sceneEntry, e0, e1, e2, e3, e4]

theorem linkEntry_isSome (fresh : CollisionGeometry) (r : Response) (h : r.linkParallel)
    (j : Nat) (hj : j < r.name.length) : (linkEntry fresh r j).isSome = true := by
  obtain ⟨h1, h2, h3, h4⟩ := h
  obtain ⟨a0, e0⟩ := getElem?_of_le r.name j _ hj (le_refl _)
  obtain ⟨a1, e1⟩ := getElem?_of_le r.pose j _ hj h1
  obtain ⟨a2, e2⟩ := getElem?_of_le r.min_bounds j _ hj h2
  obtain ⟨a3, e3⟩ := getElem?_of_le r.max_bounds j _ hj h3
  obtain ⟨a4, e4⟩ := getElem?_of_le r.dimensions j _ hj h4
  simp [linkEntry, e0, e1, e2, e3, e4]

theorem sceneEntry_pose (fresh : CollisionGeometry) (r : Response) (j : Nat)
    (g : CollisionGeometry) (h : sceneEntry fresh r j = some g) :
    g.pose = fresh.pose ∧ r.centre[j]? = some g.centre := by
  unfold sceneEntry at h
  split at h
  · rename_i n c lo hi d _ hc _ _ _
    simp only [Option.some.injEq] at h
    rw [← h]
    exact ⟨rfl, hc⟩
  · cases h

theorem zip5_getElem? {α β γ δ ε : Type} (l1 : List α) (l2 : List β) (l3 : List γ)
    (l4 : List δ) (l5 : List ε) (j : Nat) :
    (zip5 l1 l2 l3 l4 l5)[j]? =
      (l1[j]?).bind (fun a => (l2[j]?).bind (fun b => (l3[j]?).bind (fun c =>
        (l4[j]?).bind (fun d => (l5[j]?).map (fun e => (a, b, c, d, e)))))) := by
  induction l1 generalizing l2 l3 l4 l5 j with
  | nil => simp [zip5]
  | cons a l1 ih =>
    cases l2 with
    | nil => cases h : (a :: l1)[j]? <;> simp [zip5]
    | cons b l2 =>
      cases l3 with
      | nil => cases h : (a :: l1)[j]? <;> cases h2 : (b :: l2)[j]? <;> simp [zip5]
      | cons c l3 =>
        cases l4 with
        | nil =>
          cases h : (a :: l1)[j]? <;> cases h2 : (b :: l2)[j]? <;>
            cases h3 : (c :: l3)[j]? <;> simp [zip5]
        | cons d l4 =>
          cases l5 with
          | nil =>
            cases h : (a :: l1)[j]? <;> cases h2 : (b :: l2)[j]? <;>
              cases h3 : (c :: l3)[j]? <;> cases h4 : (d :: l4)[j]? <;> simp [zip5]
          | cons e l5 =>
            cases j with
            | zero => simp [zip5]
            | succ j => simp [zip5, ih]

theorem sceneGeometriesSpec_getElem? (fresh : CollisionGeometry) (r : Response) (j : Nat) :
    (sceneGeometriesSpec fresh r)[j]? = sceneEntry fresh r j := by
  unfold sceneGeometriesSpec sceneEntry
  rw [List.getElem?_map, zip5_getElem?]
  cases r.name[j]? <;> cases r.centre[j]? <;> cases r.min_bounds[j]? <;>
    cases r.max_bounds[j]? <;> cases r.dimensions[j]? <;> rfl

theorem linkGeometriesSpec_getElem? (fresh : CollisionGeometry) (r : Response) (j : Nat) :
    (linkGeometriesSpec fresh r)[j]? = linkEntry fresh r j := by
  unfold linkGeometriesSpec linkEntry
  rw [List.getElem?_map, zip5_getElem?]
  cases r.name[j]? <;> cases r.pose[j]? <;> cases r.min_bounds[j]? <;>
    cases r.max_bounds[j]? <;> cases r.dimensions[j]? <;> rfl

theorem filterMap_range_getElem? {α : Type} (l : List α) :
    (List.range l.length).filterMap (fun j => l[j]?) = l := by
  induction l with
  | nil => rfl
  | cons a l ih =>
    rw [List.length_cons, List.range_succ_eq_map, List.filterMap_cons, List.filterMap_map]
    simp only [List.getElem?_cons_zero]
    have : ((fun j => (a :: l)[j]?) ∘ Nat.succ) = fun j => l[j]? := by
      funext j
      simp
    rw [this, ih]

theorem filterMap_range_eq {α : Type} (l : List α) (f : Nat → Option α) (n : Nat)
    (hf : ∀ j, l[j]? = f j) (hsome : ∀ j, j < n → (f j).isSome = true)
    (hn : ∀ j, (f j).isSome = true → j < n) :
    (List.range n).filterMap f = l := by
  have hlen : n = l.length := by
    apply le_antisymm
    · by_contra hlt
      have h1 := hsome l.length (by omega)
      rw [← hf, List.getElem?_eq_none (le_refl _)] at h1
      cases h1
    · by_contra hlt
      have h1 : (f n).isSome = true := by
        rw [← hf, List.getElem?_eq_getElem (by omega)]
        rfl
      exact absurd (hn n h1) (by omega)
  have hfun : f = fun j => l[j]? := funext (fun j => (hf j).symm)
  rw [hlen, hfun]
  exact filterMap_range_getElem? l

theorem sceneEntry_lt (fresh : CollisionGeometry) (r : Response) (j : Nat)
    (h : (sceneEntry fresh r j).isSome = true) : j < r.name.length := by
  unfold sceneEntry at h
  split at h
  · rename_i n c lo hi d hn _ _ _ _
    exact (List.getElem?_eq_some.mp hn).1
  · cases h

theorem linkEntry_lt (fresh : CollisionGeometry) (r : Response) (j : Nat)
    (h : (linkEntry fresh r j).isSome = true) : j < r.name.length := by
  unfold linkEntry at h
  split at h
  · rename_i n c lo hi d hn _ _ _ _
    exact (List.getElem?_eq_some.mp hn).1
  · cases h

theorem pushScene_eq (fresh : CollisionGeometry) (r : Response) (h : r.sceneParallel)
    (acc : List CollisionGeometry) :
    pushEntries (sceneEntry fresh r) r.name.length acc =
      some (acc ++ sceneGeometriesSpec fresh r) := by
  rw [pushEntries_eq _ _ _ (sceneEntry_isSome fresh r h),
    filterMap_range_eq (sceneGeometriesSpec fresh r) _ _
      (sceneGeometriesSpec_getElem? fresh r) (sceneEntry_isSome fresh r h)
      (sceneEntry_lt fresh r)]

theorem pushLink_eq (fresh : CollisionGeometry) (r : Response) (h : r.linkParallel)
    (acc : List CollisionGeometry) :
    pushEntries (linkEntry fresh r) r.name.length acc =
      some (acc ++ linkGeometriesSpec fresh r) := by
  rw [pushEntries_eq _ _ _ (linkEntry_isSome fresh r h),
    filterMap_range_eq (linkGeometriesSpec fresh r) _ _
      (linkGeometriesSpec_getElem? fresh r) (linkEntry_isSome fresh r h)
      (linkEntry_lt fresh r)]

theorem sceneLoop_eq (env : Env) (names : List String) (acc : List CollisionGeometry)
    (qs : List String)
    (h : ∀ n ∈ names, ¬ Contains n env.manipulator.name →
      ∀ r, env.call n = some r → r.sceneParallel) :
    sceneLoop env names (acc, qs) =
      .done (acc ++ (sceneQueriesSpec env names).flatMap
          (fun n => contribution (sceneGeometriesSpec env.fresh) (env.call n)))
        (qs ++ sceneQueriesSpec env names) := by
  induction names generalizing acc qs with
  | nil => simp [sceneLoop, sceneQueriesSpec]
  | cons n ns ih =>
    have hns : ∀ m ∈ ns, ¬ Contains m env.manipulator.name →
        ∀ r, env.call m = some r → r.sceneParallel :=
      fun m hm => h m (List.mem_cons_of_mem _ hm)
    unfold sceneLoop
    by_cases hf : found n env.manipulator.name = true
    · have hc : Contains n env.manipulator.name := (found_iff _ _).mp hf
      simp only [hf, if_true]
      rw [ih acc qs hns]
      simp [sceneQueriesSpec, hc]
    · have hc : ¬ Contains n env.manipulator.name := fun hc => hf ((found_iff _ _).mpr hc)
      simp only [hf, if_false, Bool.false_eq_true]
      cases hr : env.call n with
      | none =>
        simp only []
        rw [ih acc (qs ++ [n]) hns]
        simp [sceneQueriesSpec, hc, hr, contribution]
      | some r =>
        have hp := h n (List.mem_cons_self _ _) hc r hr
        simp only []
        rw [pushScene_eq env.fresh r hp]
        simp only []
        rw [ih _ (qs ++ [n]) hns]
        simp [sceneQueriesSpec, hc, hr, contribution]

theorem linkQuery_eq_spec (m : Manipulator) (i : Nat) : linkQuery m i = linkQuerySpec m i := by
  unfold linkQuery linkQuerySpec
  by_cases h : i < m.numJoints <;> simp [h, String.append_assoc]

theorem linkLoop_eq (env : Env) (is : List Nat) (acc : List CollisionGeometry)
    (qs : List String)
    (h : ∀ i ∈ is, ∀ r, env.call (linkQuerySpec env.manipulator i) = some r → r.linkParallel) :
    linkLoop env is (acc, qs) =
      .done (acc ++ (is.map (linkQuerySpec env.manipulator)).flatMap
          (fun q => contribution (linkGeometriesSpec env.fresh) (env.call q)))
        (qs ++ is.map (linkQuerySpec env.manipulator)) := by
  induction is generalizing acc qs with
  | nil => simp [linkLoop]
  | cons i is ih =>
    have his : ∀ k ∈ is, ∀ r, env.call (linkQuerySpec env.manipulator k) = some r →
        r.linkParallel :=
      fun k hk => h k (List.mem_cons_of_mem _ hk)
    unfold linkLoop
    simp only [linkQuery_eq_spec]
    cases hr : env.call (linkQuerySpec env.manipulator i) with
    | none =>
      simp only []
      rw [ih acc _ his]
      simp [hr, contribution]
    | some r =>
      have hp := h i (List.mem_cons_self _ _) r hr
      simp only []
      rw [pushLink_eq env.fresh r hp]
      simp only []
      rw [ih _ _ his]
      simp [hr, contribution]

theorem getCollisionBoxes_eq (env : Env) (c : Controller)
    (hscene : ∀ n ∈ c.states_name, ¬ Contains n env.manipulator.name →
      ∀ r, env.call n = some r → r.sceneParallel)
    (hlink : ∀ i, i < env.manipulator.numJoints + 3 →
      ∀ r, env.call (linkQuerySpec env.manipulator i) = some r → r.linkParallel) :
    getCollisionBoxes env c =
      .done (c.collision_geometries ++ aggregateSpec env c.states_name)
        (sceneQueriesSpec env c.states_name ++ linkQueriesSpec env) := by
  unfold getCollisionBoxes
  rw [sceneLoop_eq env _ _ _ hscene]
  simp only []
  rw [linkLoop_eq env _ _ _ (fun i hi => hlink i (List.mem_range.mp hi))]
  simp [aggregateSpec, linkQueriesSpec]

/-- Refinement of the reference aggregation by `getCollisionBoxes`, for a provider whose
responses have, in each array the loop reads, an entry at every index of their name array:
starting from an empty geometry list the result is the contributions of the scene names not
containing the manipulator name, in scene order, then those of the link queries in index
order, and the requests made are exactly those names, once each, in that order. -/
theorem getCollisionBoxes_refines_aggregate (env : Env) (c : Controller)
    (hempty : c.collision_geometries = [])
    (hscene : ∀ n ∈ c.states_name, ¬ Contains n env.manipulator.name →
      ∀ r, env.call n = some r → r.sceneParallel)
    (hlink : ∀ i, i < env.manipulator.numJoints + 3 →
      ∀ r, env.call (linkQuerySpec env.manipulator i) = some r → r.linkParallel) :
    getCollisionBoxes env c =
      .done (aggregateSpec env c.states_name)
        (sceneQueriesSpec env c.states_name ++ linkQueriesSpec env) := by
  rw [getCollisionBoxes_eq env c hscene hlink, hempty]
  simp

/-- Scenario A with a provider that answers for the table, the can and the first arm link,
pose included: the aggregation is the reference one. -/
theorem getCollisionBoxes_refines_aggregate_witness :
    getCollisionBoxes envLinks sessionA =
      .done (aggregateSpec envLinks sessionA.states_name)
        (sceneQueriesSpec envLinks sessionA.states_name ++ linkQueriesSpec envLinks) ∧
    (aggregateSpec envLinks sessionA.states_name).map (fun g => g.name) =
      ["table_top", "table_leg", "coke_can_collision", "j2s7s300_link_1"] ∧
    sceneQueriesSpec envLinks sessionA.states_name ++ linkQueriesSpec envLinks = queriesA := by
  refine ⟨getCollisionBoxes_refines_aggregate envLinks sessionA rfl ?_ ?_, by decide, by decide⟩
  · intro n hn _ r hr
    have key : ∀ m ∈ sessionA.states_name,
        (envLinks.call m).all (fun r => decide r.sceneParallel) = true := by decide
    have hk := key n hn
    rw [hr] at hk
    simpa using hk
  · intro i hi r hr
    have key : ∀ k, k < envLinks.manipulator.numJoints + 3 →
        (envLinks.call (linkQuerySpec envLinks.manipulator k)).all
          (fun r => decide r.linkParallel) = true := by decide
    have hk := key i hi
    rw [hr] at hk
    simpa using hk

/-- C3 (failing input): scenario A with the repository's own geometry service as provider.
The service answers the can with one sub-geometry and the query of the first arm link with
one name and no pose; `getCollisionBoxes`, started on an empty list, reads the pose of that
entry past the end of the array after three requests and does not produce the reference
aggregation, nor any list at all. -/
theorem getCollisionBoxes_undefined_with_plugin :
    sessionA.collision_geometries = [] ∧
    (sceneQueriesSpec envPlugin sessionA.states_name ++ linkQueriesSpec envPlugin).map
        (fun q => (envPlugin.call q).map (fun r => (r.name, r.pose.length))) =
      [none, some (["coke_can_collision"], 0), some (["j2s7s300_link_1"], 0),
        some ([], 0), some ([], 0), some ([], 0), some ([], 0), some ([], 0), some ([], 0),
        some ([], 0), some ([], 0), some ([], 0)] ∧
    getCollisionBoxes envPlugin sessionA =
      .outOfRange ["table", "coke_can", "j2s7s300_link_1"] ∧
    getCollisionBoxes envPlugin sessionA ≠
      .done (aggregateSpec envPlugin sessionA.states_name)
        (sceneQueriesSpec envPlugin sessionA.states_name ++ linkQueriesSpec envPlugin) := by
  decide

/-! ## Path to trajectory -/

theorem positionsAt_append_length (pts : List JointTrajectoryPoint) (pt : JointTrajectoryPoint) :
    positionsAt (pts ++ [pt]) pts.length = pt.positions := by
  simp [positionsAt]

theorem seedAt_succ (m : Manipulator) (pts : List JointTrajectoryPoint)
    (pt : JointTrajectoryPoint) (i : Nat) (hlen : pts.length = i) :
    seedAt m (pts ++ [pt]) (i + 1) = pt.positions := by
  subst hlen
  simp [seedAt, positionsAt_append_length]

theorem jointGoalLoop_cons (env : Env) (s : State) (ss : List State) (i : Nat)
    (pts : List JointTrajectoryPoint) :
    jointGoalLoop env (s :: ss) i pts =
      if env.manipulator.solveIK ⟨s.x, s.y, s.z⟩ s.rot (seedAt env.manipulator pts i) = []
      then .exited (-1)
      else if env.ok i = false then .exited 0
      else jointGoalLoop env ss (i + 1)
        (pts ++ [pointOf env.manipulator
          (env.manipulator.solveIK ⟨s.x, s.y, s.z⟩ s.rot (seedAt env.manipulator pts i)) i]) := by
  by_cases hi : i = 0
  · subst hi
    simp [jointGoalLoop, seedAt, pointOf, List.isEmpty_iff]
  · simp [jointGoalLoop, seedAt, pointOf, List.isEmpty_iff, hi]

theorem jointGoalLoop_shape (env : Env) (ss : List State) (i : Nat)
    (pts : List JointTrajectoryPoint) (traj : JointTrajectory) (hlen : pts.length = i)
    (h : jointGoalLoop env ss i pts = .ok traj) :
    traj = ⟨env.manipulator.jointNames,
      pts ++ stampFrom env.manipulator i
        (chainedIK env.manipulator (seedAt env.manipulator pts i) ss)⟩ := by
  induction ss generalizing i pts with
  | nil =>
    simp only [jointGoalLoop, Conversion.ok.injEq] at h
    simp [← h, chainedIK, stampFrom]
  | cons s ss ih =>
    rw [jointGoalLoop_cons] at h
    split at h
    · cases h
    · split at h
      · cases h
      · have := ih (i + 1) _ (by simp [hlen]) h
        rw [this]
        simp [seedAt_succ _ _ _ _ hlen, pointOf, chainedIK, stampFrom]

theorem jointGoalLoop_fails (env : Env) (ss : List State) (i j : Nat)
    (pts : List JointTrajectoryPoint) (hlen : pts.length = i)
    (hfail : (chainedIK env.manipulator (seedAt env.manipulator pts i) ss)[j]? = some []) :
    jointGoalLoop env ss i pts = .exited (-1) ∨
      (jointGoalLoop env ss i pts = .exited 0 ∧ ∃ k, k < j ∧ env.ok (i + k) = false) := by
  induction ss generalizing i j pts with
  | nil => simp [chainedIK] at hfail
  | cons s ss ih =>
    rw [jointGoalLoop_cons]
    by_cases h0 :
        env.manipulator.solveIK ⟨s.x, s.y, s.z⟩ s.rot (seedAt env.manipulator pts i) = []
    · simp [h0]
    · simp only [h0, if_false]
      cases j with
      | zero =>
        simp only [chainedIK, List.getElem?_cons_zero, Option.some.injEq] at hfail
        exact absurd hfail h0
      | succ j =>
        by_cases hoki : env.ok i = false
        · right
          simp only [hoki, if_true, true_and]
          exact ⟨0, by omega, by simpa using hoki⟩
        · have hoki2 : env.ok i = true := by simpa using hoki
          simp only [hoki2, Bool.true_eq_false, if_false]
          simp only [chainedIK, List.getElem?_cons_succ] at hfail
          have hseed : seedAt env.manipulator (pts ++ [pointOf env.manipulator
              (env.manipulator.solveIK ⟨s.x, s.y, s.z⟩ s.rot (seedAt env.manipulator pts i)) i])
              (i + 1) =
              env.manipulator.solveIK ⟨s.x, s.y, s.z⟩ s.rot (seedAt env.manipulator pts i) := by
            rw [seedAt_succ _ _ _ _ hlen]
            rfl
          rw [← hseed] at hfail
          rcases ih (i + 1) j _ (by simp [hlen]) hfail with h | ⟨h, k, hk, hfalse⟩
          · exact Or.inl h
          · refine Or.inr ⟨h, k + 1, by omega, ?_⟩
            rw [← hfalse]
            congr 1
            omega

theorem stampFrom_getElem? (m : Manipulator) (i k : Nat) (as : List (List Scalar)) :
    (stampFrom m i as)[k]? = (as[k]?).map (fun a => pointOf m a (i + k)) := by
  induction as generalizing i k with
  | nil => simp [stampFrom]
  | cons a as ih =>
    cases k with
    | zero => simp [stampFrom]
    | succ k =>
      simp only [stampFrom, List.getElem?_cons_succ, ih]
      congr 1
      funext a
      congr 1
      omega

/-- C4 (failing input): scenario A with a planner that finds no valid path. The first tick
leaves the reference aggregation in `collision_geometries_`; the second tick, with the same
snapshot and answers, resolves the target in and hands the planner that list twice over,
each name appearing twice. -/
theorem run_accumulates_geometries :
    aggregateSpec envNoPlan sessionA.states_name = geomsA ∧
    (run envNoPlan sessionA).session = some { sessionA with collision_geometries := geomsA } ∧
    (run envNoPlan { sessionA with collision_geometries := geomsA }).session =
      some { sessionA with collision_geometries := geomsA ++ geomsA } ∧
    (run envNoPlan { sessionA with collision_geometries := geomsA }).trace.filterMap
      Event.geoms? = [geomsA ++ geomsA] := by
  decide

/-- C5: with `solved` set, or with no snapshot received, `run` returns at once: it sends
nothing (no geometry query, no planner request, no trajectory goal) and leaves the session as
it was. No operation of the controller resets `solved`: after any returning `run` a session
that was solved still is, and `setTargetName` and `statesCallback` do not touch the flag. -/
theorem run_noop_when_done (env : Env) (c : Controller) :
    ((c.states_pose = [] ∨ c.solved = true) → run env c = .returned c []) ∧
    (∀ c2 t, run env c = .returned c2 t → c.solved = true → c2.solved = true) ∧
    (∀ target, (setTargetName c target).solved = c.solved) ∧
    (∀ name pose, (statesCallback c name pose).solved = c.solved) := by
  have noop : (c.states_pose = [] ∨ c.solved = true) → run env c = .returned c [] := by
    intro h
    have hguard : (c.states_pose.isEmpty || c.solved) = true := by
      rcases h with h | h
      · simp [h]
      · simp [h]
    unfold run
    simp [hguard]
  refine ⟨noop, ?_, fun _ => rfl, fun _ _ => rfl⟩
  intro c2 t hrun hs
  rw [noop (Or.inr hs)] at hrun
  simp only [Outcome.returned.injEq] at hrun
  rw [← hrun.1]
  exact hs

/-- C5 (witness): the solved session of scenario A, with a planner that would succeed. -/
theorem run_noop_when_done_witness :
    run (envPlan 2) sessionDone = .returned sessionDone [] :=
  (run_noop_when_done (envPlan 2) sessionDone).1 (Or.inr rfl)

/-- C7: in every trajectory `getJointGoal` returns, point i is stamped 5 + i * 2 seconds, so
the stamps are strictly increasing along the trajectory. -/
theorem getJointGoal_stamps (env : Env) (path : PathGeometric) (traj : JointTrajectory)
    (h : getJointGoal env path = .ok traj) :
    (∀ i p, traj.points[i]? = some p → p.time_from_start = 5 + i * 2) ∧
    (∀ (i j : Nat) (p q : JointTrajectoryPoint), i < j → traj.points[i]? = some p →
      traj.points[j]? = some q → p.time_from_start < q.time_from_start) := by
  have stamp : ∀ i p, traj.points[i]? = some p → p.time_from_start = 5 + i * 2 := by
    intro i p hp
    cases hst : path.states with
    | nil => simp [getJointGoal, hst] at h
    | cons s0 rest =>
      simp only [getJointGoal, hst] at h
      have hshape := jointGoalLoop_shape env rest 0 [] traj rfl h
      rw [hshape] at hp
      simp only [List.nil_append, stampFrom_getElem?, Nat.zero_add, Option.map_eq_some'] at hp
      obtain ⟨a, _, rfl⟩ := hp
      rfl
  refine ⟨stamp, ?_⟩
  intro i j p q hij hp hq
  rw [stamp i p hp, stamp j q hq]
  omega

/-- C7 (witness): the trajectory of a three state path is stamped 5 and 7. -/
theorem getJointGoal_stamps_witness :
    ∃ traj, getJointGoal (envPlan 2) (linePath 2 true) = .ok traj ∧
      traj.points.map (fun p => p.time_from_start) = [5, 7] ∧
      (∀ i p, traj.points[i]? = some p → p.time_from_start = 5 + i * 2) :=
  ⟨⟨kinova.jointNames, stampFrom kinova 0 [[1, 0], [2, 1]]⟩, by decide, by decide,
    (getJointGoal_stamps (envPlan 2) (linePath 2 true)
      ⟨kinova.jointNames, stampFrom kinova 0 [[1, 0], [2, 1]]⟩ (by decide)).1⟩

/-! ## Failure of the conversion and of the executor -/

theorem run_converts (env : Env) (c : Controller) (geoms : List CollisionGeometry)
    (qs : List String) (i : Nat) (goal : Vec3)
    (hpose : c.states_pose ≠ []) (hsolved : c.solved = false)
    (hg : getCollisionBoxes env c = .done geoms qs)
    (ht : findTarget c.target geoms 0 = some (i, goal))
    (hcheck : (env.plan geoms env.manipulator.name env.manipulator.solveFK goal
      c.target).check = true)
    (code : Int)
    (hconv : getJointGoal env
      (env.plan geoms env.manipulator.name env.manipulator.solveFK goal c.target) =
        .exited code) :
    ∃ t, run env c = .exited code t ∧ ∀ e ∈ t, e.isDispatch = false := by
  have hguard : (c.states_pose.isEmpty || c.solved) = false := by
    cases hp : c.states_pose with
    | nil => exact absurd hp hpose
    | cons a l => simp [hsolved]
  unfold run
  simp only [hguard, hg, ht, hcheck, hconv, Bool.false_eq_true, if_false, if_true]
  refine ⟨_, rfl, ?_⟩
  intro e he
  simp only [List.cons_append, List.mem_cons, List.mem_append, List.mem_map,
    List.mem_replicate, List.mem_singleton, List.not_mem_nil, or_false] at he
  rcases he with rfl | (⟨q, _, rfl⟩ | rfl | rfl) | rfl | ⟨_, rfl⟩ <;> rfl

/-- C8: on a tick that passes the guard, finds the target and gets a valid path, if a
chained solve at a retained index `j` returns no solution then `run` ends in `exit` with
no session left to mark solved, having sent no arm and no gripper goal to the executor; and
unless a shutdown request comes first, `getJointGoal` and `run` end in `exit(-1)`. -/
theorem ik_failure_dispatches_nothing (env : Env) (c : Controller)
    (geoms : List CollisionGeometry) (qs : List String) (i : Nat) (goal : Vec3) (j : Nat)
    (hpose : c.states_pose ≠ []) (hsolved : c.solved = false)
    (hg : getCollisionBoxes env c = .done geoms qs)
    (ht : findTarget c.target geoms 0 = some (i, goal))
    (hcheck : (env.plan geoms env.manipulator.name env.manipulator.solveFK goal
      c.target).check = true)
    (hfail : (chainedIK env.manipulator env.manipulator.initPose
      (env.plan geoms env.manipulator.name env.manipulator.solveFK goal
        c.target).states.tail)[j]? = some []) :
    (∃ code t, run env c = .exited code t ∧ (run env c).session = none ∧
      ∀ e ∈ t, e.isDispatch = false) ∧
    ((∀ k, k < j → env.ok k = true) →
      getJointGoal env
        (env.plan geoms env.manipulator.name env.manipulator.solveFK goal c.target) =
          .exited (-1) ∧
      ∃ t, run env c = .exited (-1) t ∧ ∀ e ∈ t, e.isDispatch = false) := by
  have hloop : getJointGoal env
      (env.plan geoms env.manipulator.name env.manipulator.solveFK goal c.target) =
        .exited (-1) ∨
      (getJointGoal env
        (env.plan geoms env.manipulator.name env.manipulator.solveFK goal c.target) =
          .exited 0 ∧ ∃ k, k < j ∧ env.ok k = false) := by
    cases hst : (env.plan geoms env.manipulator.name env.manipulator.solveFK goal
        c.target).states with
    | nil => simp [hst, chainedIK] at hfail
    | cons s0 rest =>
      rw [hst] at hfail
      simp only [getJointGoal, hst]
      have := jointGoalLoop_fails env rest 0 j [] rfl hfail
      simpa using this
  constructor
  · rcases hloop with h | ⟨h, _⟩
    · obtain ⟨t, hrun, hno⟩ := run_converts env c geoms qs i goal hpose hsolved hg ht hcheck _ h
      exact ⟨_, t, hrun, by rw [hrun]; rfl, hno⟩
    · obtain ⟨t, hrun, hno⟩ := run_converts env c geoms qs i goal hpose hsolved hg ht hcheck _ h
      exact ⟨_, t, hrun, by rw [hrun]; rfl, hno⟩
  · intro hok
    rcases hloop with h | ⟨_, k, hk, hfalse⟩
    · exact ⟨h, run_converts env c geoms qs i goal hpose hsolved hg ht hcheck _ h⟩
    · rw [hok k hk] at hfalse
      cases hfalse

/-- C8 (witness): scenario D, a path of six states whose retained index 2 has no solution. -/
theorem ik_failure_dispatches_nothing_witness :
    getJointGoal (envPlan 5) (linePath 5 true) = .exited (-1) ∧
    ∃ t, run (envPlan 5) sessionA = .exited (-1) t ∧ ∀ e ∈ t, e.isDispatch = false :=
  (ik_failure_dispatches_nothing (envPlan 5) sessionA geomsA queriesA 2 zeroVec 2
    (by decide) rfl (by decide) (by decide) rfl (by decide)).2 (by decide)

theorem sceneLoop_execute (env : Env) (ex : JointTrajectory → ActionResult)
    (names : List String) (st : List CollisionGeometry × List String) :
    sceneLoop { env with execute := ex } names st = sceneLoop env names st := by
  induction names generalizing st with
  | nil => rfl
  | cons n ns ih =>
    obtain ⟨acc, qs⟩ := st
    simp only [sceneLoop, ih]

theorem linkLoop_execute (env : Env) (ex : JointTrajectory → ActionResult)
    (is : List Nat) (st : List CollisionGeometry × List String) :
    linkLoop { env with execute := ex } is st = linkLoop env is st := by
  induction is generalizing st with
  | nil => rfl
  | cons n ns ih =>
    obtain ⟨acc, qs⟩ := st
    simp only [linkLoop, ih]

theorem getCollisionBoxes_execute (env : Env) (ex : JointTrajectory → ActionResult)
    (c : Controller) :
    getCollisionBoxes { env with execute := ex } c = getCollisionBoxes env c := by
  simp only [getCollisionBoxes, sceneLoop_execute, linkLoop_execute]

theorem jointGoalLoop_execute (env : Env) (ex : JointTrajectory → ActionResult)
    (ss : List State) (i : Nat) (pts : List JointTrajectoryPoint) :
    jointGoalLoop { env with execute := ex } ss i pts = jointGoalLoop env ss i pts := by
  induction ss generalizing i pts with
  | nil => rfl
  | cons s ss ih => simp only [jointGoalLoop, ih]

theorem getJointGoal_execute (env : Env) (ex : JointTrajectory → ActionResult)
    (path : PathGeometric) :
    getJointGoal { env with execute := ex } path = getJointGoal env path := by
  unfold getJointGoal
  cases path.states with
  | nil => rfl
  | cons s ss => exact jointGoalLoop_execute env ex ss 0 []

/-- C9 (counterexample): the executor aborts every goal, and `run` still marks the session
solved. -/
theorem run_solved_after_aborted_dispatch :
    (run envAborted sessionA).trace.filterMap Event.result? =
      [.aborted, .aborted, .aborted, .aborted] ∧
    (run envAborted sessionA).session.map (fun c => c.solved) = some true := by
  decide

/-- C9 (amended): the terminal results of the executor do not reach the caller of
`sendAction`: the session a call of `run` leaves behind is the same whatever results the
executor gives, and whenever `run` has sent an arm goal the session it leaves is marked
solved. -/
theorem run_ignores_executor_results (env : Env) (c : Controller)
    (ex : JointTrajectory → ActionResult) :
    (run { env with execute := ex } c).session = (run env c).session ∧
    (∀ jt, Event.armGoal jt ∈ (run env c).trace →
      ∃ c2, (run env c).session = some c2 ∧ c2.solved = true) := by
  constructor
  · unfold run
    simp only [getCollisionBoxes_execute, getJointGoal_execute]
    split
    · rfl
    · split
      · rfl
      · split
        · rfl
        · split
          · split <;> rfl
          · rfl
  · intro jt
    generalize ho : run env c = o
    intro hmem
    unfold run at ho
    split at ho
    · subst ho
      simp [Outcome.trace] at hmem
    · split at ho
      · subst ho
        simp [Outcome.trace] at hmem
      · split at ho
        · subst ho
          simp [Outcome.trace] at hmem
        · simp only [] at ho
          split at ho
          · split at ho
            · subst ho
              simp [Outcome.trace] at hmem
            · subst ho
              simp [Outcome.trace] at hmem
            · subst ho
              simp [Outcome.session]
          · subst ho
            simp [Outcome.trace] at hmem

/-- C9 (witness): the aborting executor of scenario A against the succeeding one. -/
theorem run_ignores_executor_results_witness :
    (run envAborted sessionA).session = (run (envPlan 2) sessionA).session ∧
    ∃ c2, (run envAborted sessionA).session = some c2 ∧ c2.solved = true :=
  ⟨(run_ignores_executor_results (envPlan 2) sessionA (fun _ => .aborted)).1,
    (run_ignores_executor_results envAborted sessionA (fun _ => .aborted)).2
      ⟨kinova.jointNames, stampFrom kinova 0 [[1, 0], [2, 1]]⟩ (by decide)⟩

/-! ## The geometry service -/

theorem collisionLoop_pose (req : String) (find_link : Bool) (link_name : String)
    (kids : List LinkChild) (res res2 : Response)
    (h : collisionLoop req find_link link_name kids res = some res2) :
    res2.pose = res.pose := by
  induction kids generalizing res with
  | nil =>
    simp only [collisionLoop, Option.some.injEq] at h
    rw [← h]
  | cons ch rest ih =>
    unfold collisionLoop at h
    split at h
    · split at h
      · cases h
      · rw [ih _ h]
        rfl
    · split at h
      · split at h
        · cases h
        · simp only [Option.some.injEq] at h
          rw [← h]
          rfl
      · exact ih _ h

theorem childLoop_pose (req : String) (find_link : Bool) (kids : List ModelChild)
    (res res2 : Response) (success : Bool)
    (h : childLoop req find_link kids res = .returned success res2) :
    res2.pose = res.pose := by
  induction kids generalizing res with
  | nil =>
    simp only [childLoop, SrvOutcome.returned.injEq] at h
    rw [← h.2]
  | cons ch rest ih =>
    unfold childLoop at h
    split at h
    · exact ih _ h
    · simp only [] at h
      split at h
      · cases h
      · split at h
        · cases h
        · rename_i res3 hloop
          rw [ih _ h]
          exact collisionLoop_pose _ _ _ _ _ _ hloop

theorem getGeometrySrv_pose (w : World) (req : String) (success : Bool) (res : Response)
    (h : getGeometrySrv w req = .returned success res) : res.pose = [] := by
  unfold getGeometrySrv at h
  simp only [] at h
  split at h
  · cases h
  · simp only [SrvOutcome.returned.injEq] at h
    rw [← h.2]
    rfl
  · rw [childLoop_pose _ _ _ _ _ _ h]
    rfl

/-- C10 (failing input): for the query of the first arm link the service returns one name
and an empty pose array, so the read `srv.response.pose[0]` of `getCollisionBoxes` is past
the end of the array and the tick is undefined. -/
theorem link_pose_read_out_of_range :
    getGeometrySrv kinovaWorld "j2s7s300_link_1" =
      .returned true ⟨["j2s7s300_link_1"], [⟨0, 0, 0⟩], [⟨2, 2, 4⟩], [⟨1, 1, 2⟩], [⟨2, 2, 4⟩],
        [], "GeomtriesPlugin: Model found!"⟩ ∧
    getCollisionBoxes envPlugin sessionA =
      .outOfRange ["table", "coke_can", "j2s7s300_link_1"] ∧
    run envPlugin sessionA =
      .undefinedBehaviour
        [.marker, .query "table", .query "coke_can", .query "j2s7s300_link_1"] := by
  decide

/-! ## Whole-model queries -/

theorem findFrom_bound (pat : List Char) (s : List Char) (i p : Nat)
    (h : findFrom pat s i = some p) : i ≤ p ∧ p + pat.length ≤ i + s.length := by
  induction s generalizing i with
  | nil =>
    unfold findFrom at h
    split at h
    · rename_i he
      simp only [Option.some.injEq] at h
      have : pat = [] := List.isEmpty_iff.mp he
      subst this
      simp [← h]
    · cases h
  | cons c cs ih =>
    unfold findFrom at h
    split at h
    · rename_i hp
      simp only [Option.some.injEq] at h
      have hle := (List.isPrefixOf_iff_prefix.mp hp).length_le
      subst h
      exact ⟨le_refl _, by omega⟩
    · have := ih (i + 1) h
      simp only [List.length_cons]
      omega

theorem length_le_utf8ByteSize (s : String) : s.data.length ≤ s.utf8ByteSize := by
  obtain ⟨data⟩ := s
  show data.length ≤ String.utf8ByteSize.go data
  induction data with
  | nil => exact Nat.le_refl _
  | cons c cs ih =>
    have hpos := Char.utf8Size_pos c
    show cs.length + 1 ≤ String.utf8ByteSize.go cs + c.utf8Size
    omega

theorem linkName_substr (req : String) (hlen : req.utf8ByteSize < 2 ^ 64)
    (h4 : found req "link_" = true ∨ 4 ≤ req.utf8ByteSize) :
    ∃ sub, substr req
      (((match find req "link_" with
          | some p => p
          | none => npos) + 5) % 2 ^ 64) req.utf8ByteSize = some sub := by
  have hdata := length_le_utf8ByteSize req
  cases hf : find req "link_" with
  | some p =>
    have hb := findFrom_bound _ _ _ _ hf
    have h5 : "link_".data.length = 5 := rfl
    rw [h5] at hb
    have hmod : (p + 5) % 2 ^ 64 = p + 5 := Nat.mod_eq_of_lt (by omega)
    simp only [hmod, substr]
    rw [if_neg (by omega)]
    exact ⟨_, rfl⟩
  | none =>
    have h4b : 4 ≤ req.utf8ByteSize := by
      rcases h4 with h | h
      · simp [found, hf] at h
      · exact h
    have hmod : (npos + 5) % 2 ^ 64 = 4 := by decide
    simp only [hmod, substr]
    rw [if_neg (by omega)]
    exact ⟨_, rfl⟩

theorem pushBox_eq_extend (res : Response) (name : String) (box : Box) :
    pushBox res name box = res.extend [(name, box)] := rfl

theorem extend_nil (res : Response) : res.extend [] = res := by
  simp [Response.extend]

theorem extend_extend (res : Response) (a b : List (String × Box)) :
    (res.extend a).extend b = res.extend (a ++ b) := by
  simp [Response.extend]

theorem collisionLoop_whole (req link_name : String) (kids : List LinkChild) (res : Response)
    (h : ∀ k ∈ kids, k.collision.isSome = true) :
    collisionLoop req false link_name kids res = some (res.extend (linkEntriesSpec req kids)) := by
  induction kids generalizing res with
  | nil => simp [collisionLoop, linkEntriesSpec, extend_nil]
  | cons k ks ih =>
    obtain ⟨box, hbox⟩ := Option.isSome_iff_exists.mp (h k (List.mem_cons_self _ _))
    unfold collisionLoop
    simp only [Bool.not_false, if_true, hbox]
    rw [ih _ (fun k2 hk2 => h k2 (List.mem_cons_of_mem _ hk2)), pushBox_eq_extend,
      extend_extend]
    simp [linkEntriesSpec, hbox]

theorem childLoop_whole (req : String) (children : List ModelChild) (res : Response)
    (hsub : ∃ sub, substr req
      (((match find req "link_" with
          | some p => p
          | none => npos) + 5) % 2 ^ 64) req.utf8ByteSize = some sub)
    (h : ∀ ch ∈ children, ∀ kids, ch.link = some kids →
      ∀ k ∈ kids, k.collision.isSome = true) :
    childLoop req false children res =
      .returned true
        { res.extend (children.flatMap (fun ch =>
            match ch.link with
            | some kids => linkEntriesSpec req kids
            | none => [])) with
          message := "GeomtriesPlugin: Model found!" } := by
  induction children generalizing res with
  | nil => simp [childLoop, extend_nil]
  | cons ch rest ih =>
    have hrest : ∀ ch2 ∈ rest, ∀ kids, ch2.link = some kids →
        ∀ k ∈ kids, k.collision.isSome = true :=
      fun ch2 h2 => h ch2 (List.mem_cons_of_mem _ h2)
    obtain ⟨sub, hs⟩ := hsub
    unfold childLoop
    cases hl : ch.link with
    | none =>
      simp only []
      rw [ih _ hrest]
      simp [hl]
    | some kids =>
      simp only [hs]
      rw [collisionLoop_whole _ _ _ _ (h ch (List.mem_cons_self _ _) kids hl)]
      simp only []
      rw [ih _ hrest, extend_extend]
      simp [hl]

theorem getGeometrySrv_whole_model (w : World) (req : String) (m : Model)
    (hno : found req "_link" = false) (hm : ModelByName w req = some m)
    (hall : m.allCollisions) (hlen : req.utf8ByteSize < 2 ^ 64)
    (h4 : found req "link_" = true ∨ 4 ≤ req.utf8ByteSize) :
    getGeometrySrv w req = .returned true (wholeModelSpec req m) ∧
    (wholeModelSpec req m).name = (modelEntriesSpec req m).map (fun e => e.1) ∧
    (wholeModelSpec req m).min_bounds.length = (wholeModelSpec req m).name.length ∧
    (wholeModelSpec req m).max_bounds.length = (wholeModelSpec req m).name.length ∧
    (wholeModelSpec req m).centre.length = (wholeModelSpec req m).name.length ∧
    (wholeModelSpec req m).dimensions.length = (wholeModelSpec req m).name.length := by
  refine ⟨?_, ?_, ?_, ?_, ?_, ?_⟩
  · have hf : find req "_link" = none := by
      cases hfind : find req "_link" with
      | none => rfl
      | some p => simp [found, hfind] at hno
    unfold getGeometrySrv
    simp only [hf, hm]
    rw [childLoop_whole req m.children Response.empty (linkName_substr req hlen h4) hall]
    rfl
  all_goals simp [wholeModelSpec, Response.extend, Response.empty]

theorem getGeometrySrv_short_name (w : World) (req : String) (m : Model)
    (kids : List LinkChild) (rest : List ModelChild)
    (hno : found req "_link" = false) (hm : ModelByName w req = some m)
    (hchildren : m.children = ⟨some kids⟩ :: rest) (hshort : req.utf8ByteSize < 4) :
    getGeometrySrv w req = .outOfRange := by
  have hdata := length_le_utf8ByteSize req
  have hf : find req "_link" = none := by
    cases hfind : find req "_link" with
    | none => rfl
    | some p => simp [found, hfind] at hno
  have hf2 : find req "link_" = none := by
    cases hfind : find req "link_" with
    | none => rfl
    | some p =>
      have hb := findFrom_bound _ _ _ _ hfind
      have h5 : "link_".data.length = 5 := rfl
      rw [h5] at hb
      omega
  have hmod : (npos + 5) % 2 ^ 64 = 4 := by decide
  unfold getGeometrySrv
  simp only [hf, hm, hchildren]
  unfold childLoop
  simp only [hf2, hmod, substr]
  rw [if_pos (by omega)]

/-- C11 (failing input): the world holds a model named "can" whose single link has two
collision children; the request "can" does not contain "_link" and names that model, yet
the call ends in the out-of-range error of `substr` instead of returning the two entries
"can_top" and "can_base"; with the four character name "cans" the same model is answered
as the claim says. -/
theorem getGeometrySrv_short_name_out_of_range :
    found "can" "_link" = false ∧
    ModelByName (boxWorld "can") "can" = some (boxModel "can") ∧
    (boxModel "can").allCollisions ∧
    (modelEntriesSpec "can" (boxModel "can")).map (fun e => e.1) = ["can_top", "can_base"] ∧
    getGeometrySrv (boxWorld "can") "can" = .outOfRange ∧
    getGeometrySrv (boxWorld "cans") "cans" =
      .returned true (wholeModelSpec "cans" (boxModel "cans")) := by
  refine ⟨by decide, by decide, ?_, by decide, by decide, by decide⟩
  intro ch hch kids hkids k hk
  simp only [boxModel, List.mem_singleton] at hch
  subst hch
  simp only [Option.some.injEq] at hkids
  subst hkids
  simp only [List.mem_cons, List.mem_singleton, List.not_mem_nil, or_false] at hk
  rcases hk with rfl | rfl <;> rfl

end ClutterPlanning
